import Mathlib

/-!
Verification development for the corewar2d simulator.

The definitions below are a shallow embedding of the Python sources
(`core.py`, `redcode.py`, `mars.py`): machine integers are `Int`, Python's
floored `//` and `%` are `Int.fdiv` and `Int.fmod`, in-place mutation of a
core cell becomes an explicit state update on the instruction list, and
code paths that raise an exception return `Option` (with `none` for an
exception that propagates).
-/

/-- `Point2D` from `redcode.py`: an ordered pair of signed integers. -/
structure Point2D where
  x : Int
  y : Int
deriving Repr, DecidableEq

/-- Stepping modifiers from `redcode.py` (`STEP_NORMAL` .. `STEP_VERTICAL_BACKWARD`,
the four values 0..3 that the engine stores). -/
inductive Stepping where
  | normal
  | vertical
  | backward
  | verticalBackward
deriving Repr, DecidableEq

/-- Opcode constant `DAT = 0` from `redcode.py`. -/
def DAT : Nat := 0
/-- Opcode constant `MOV = 1`. -/
def MOV : Nat := 1
/-- Opcode constant `ADD = 2`. -/
def ADD : Nat := 2
/-- Opcode constant `SUB = 3`. -/
def SUB : Nat := 3
/-- Opcode constant `MUL = 4`. -/
def MUL : Nat := 4
/-- Opcode constant `DIV = 5`. -/
def DIV : Nat := 5
/-- Opcode constant `MOD = 6`. -/
def MOD : Nat := 6
/-- Opcode constant `JMP = 7`. -/
def JMP : Nat := 7
/-- Opcode constant `JMZ = 8`. -/
def JMZ : Nat := 8
/-- Opcode constant `JMN = 9`. -/
def JMN : Nat := 9
/-- Opcode constant `DJN = 10`. -/
def DJN : Nat := 10
/-- Opcode constant `SPL = 11`. -/
def SPL : Nat := 11
/-- Opcode constant `SLT = 12`. -/
def SLT : Nat := 12
/-- Opcode constant `CMP = 13`. -/
def CMP : Nat := 13
/-- Opcode constant `SEQ = 14`. -/
def SEQ : Nat := 14
/-- Opcode constant `SNE = 15`. -/
def SNE : Nat := 15
/-- Opcode constant `NOP = 16`. -/
def NOP : Nat := 16

/-- Modifier constant `M_A = 0` from `redcode.py`. -/
def M_A : Nat := 0
/-- Modifier constant `M_B = 1`. -/
def M_B : Nat := 1
/-- Modifier constant `M_AB = 2`. -/
def M_AB : Nat := 2
/-- Modifier constant `M_BA = 3`. -/
def M_BA : Nat := 3
/-- Modifier constant `M_F = 4`. -/
def M_F : Nat := 4
/-- Modifier constant `M_X = 5`. -/
def M_X : Nat := 5
/-- Modifier constant `M_I = 6`. -/
def M_I : Nat := 6

/-- Addressing mode `IMMEDIATE = 0` (symbol `#`) from `redcode.py`. -/
def IMMEDIATE : Nat := 0
/-- Addressing mode `DIRECT = 1` (symbol `$`). -/
def DIRECT : Nat := 1
/-- Addressing mode `INDIRECT_B = 2` (symbol `@`). -/
def INDIRECT_B : Nat := 2
/-- Addressing mode `PREDEC_B = 3` (symbol `<`). -/
def PREDEC_B : Nat := 3
/-- Addressing mode `POSTINC_B = 4` (symbol `>`). -/
def POSTINC_B : Nat := 4
/-- Addressing mode `INDIRECT_A = 5` (symbol `*`). -/
def INDIRECT_A : Nat := 5
/-- Addressing mode `PREDEC_A = 6` (symbol `{`). -/
def PREDEC_A : Nat := 6
/-- Addressing mode `POSTINC_A = 7` (symbol `}`). -/
def POSTINC_A : Nat := 7

/-- An engine-level instruction cell: the fields of `redcode.Instruction`
that the MARS engine reads and writes (operand values are `Point2D` by the
time instructions live in the core; `energy` is the per-cell energy used in
energy-mode). -/
structure Instr where
  opcode : Nat
  modifier : Nat
  stepping : Stepping
  aMode : Nat
  aNumber : Point2D
  bMode : Nat
  bNumber : Point2D
  energy : Int
deriving Repr, DecidableEq

/-- A placeholder cell used as the out-of-range default of list lookups
(never reached for in-range indices). -/
def blankInstr : Instr :=
  { opcode := DAT, modifier := M_F, stepping := .normal, aMode := DIRECT,
    aNumber := ⟨0, 0⟩, bMode := DIRECT, bNumber := ⟨0, 0⟩, energy := 0 }

/-- The `Core` of `core.py`: `size` cells in a `width`-column torus.  The
Python object keeps `instructions` as a mutable list; here it is threaded
explicitly. -/
structure Core where
  size : Nat
  width : Nat
  instructions : List Instr
deriving Repr, DecidableEq

/-- `self.height = size // width` from `Core.__init__`. -/
def Core.height (c : Core) : Nat := c.size / c.width

/-- `Core.point_to_index` from `core.py` lines 33-47, with Python's floored
`//` as `Int.fdiv` and Python's `%` as `Int.fmod`. -/
def Core.pointToIndex (c : Core) (p : Point2D) : Int :=
  let round_x := Int.fdiv p.x c.width
  let x_new := Int.fmod p.x c.width
  let raw_y := p.y + round_x
  let round_y := Int.fdiv p.y c.height
  let final_y := Int.fmod raw_y c.height
  let final_x := Int.fmod (x_new + round_y) c.width
  final_y * c.width + final_x

/-- `Core.trim` from `core.py` lines 57-67: the same carry-coupled wrap as
`point_to_index`, returned as a canonical `Point2D`. -/
def Core.trim (c : Core) (p : Point2D) : Point2D :=
  let round_x := Int.fdiv p.x c.width
  let x_new := Int.fmod p.x c.width
  let raw_y := p.y + round_x
  let round_y := Int.fdiv p.y c.height
  let final_y := Int.fmod raw_y c.height
  let final_x := Int.fmod (x_new + round_y) c.width
  ⟨final_x, final_y⟩

/-- `Core.__getitem__` with a point key (`core.py` line 89): fetch the cell
at the normalized index. -/
def Core.getInstr (c : Core) (p : Point2D) : Instr :=
  c.instructions.getD (c.pointToIndex p).toNat blankInstr

/-- `Core.__setitem__` (`core.py` line 92): store a cell at the normalized
index.  Mutating the object returned by `get_instruction` in Python mutates
the cell in place; that mutation is modelled as this update. -/
def Core.setInstr (c : Core) (p : Point2D) (i : Instr) : Core :=
  { c with instructions := c.instructions.set (c.pointToIndex p).toNat i }

/-- The index formula exactly as the specification words it: floored
division for the carries and a non-negative (Euclidean) modulus for the
wraps. -/
def specIndex (width height : Nat) (p : Point2D) : Int :=
  ((p.y + Int.fdiv p.x width) % height) * width +
    ((p.x % width + Int.fdiv p.y height) % width)

/-- `MARS.enqueue` from `mars.py` lines 139-148: append to the task queue
only below `max_processes`, trimming the point to the core bounds first. -/
def enqueue (c : Core) (maxProcesses : Nat) (q : List Point2D) (p : Point2D) :
    List Point2D :=
  if q.length < maxProcesses then q ++ [c.trim p] else q

theorem trim_bounds (c : Core) (p : Point2D) (hw : 0 < c.width) (hh : 0 < c.height) :
    0 ≤ (c.trim p).x ∧ (c.trim p).x < c.width ∧ 0 ≤ (c.trim p).y ∧ (c.trim p).y < c.height := by
  have hw' : (0 : Int) < c.width := by exact_mod_cast hw
  have hh' : (0 : Int) < c.height := by exact_mod_cast hh
  refine ⟨?_, ?_, ?_, ?_⟩
  · exact Int.fmod_nonneg' _ hw'
  · exact Int.fmod_lt_of_pos _ hw'
  · exact Int.fmod_nonneg' _ hh'
  · exact Int.fmod_lt_of_pos _ hh'

/-- C1: `Core.point_to_index` computes exactly the spec's formula
`((y + ⌊x/width⌋) mod height) * width + (((x mod width) + ⌊y/height⌋) mod width)`
with floored division and non-negative modulus, the result lies in
`[0, size)` whenever the core's width and height are positive and the size
is `width * height`, and on a `size = 100, width = 10` core the points
`(10,0), (-1,0), (0,10), (-1,-1)` map to `10, 99, 1, 88`. -/
theorem point_to_index_correct :
    (∀ (c : Core) (p : Point2D), 0 < c.width → 0 < c.height → c.size = c.width * c.height →
      c.pointToIndex p = specIndex c.width c.height p ∧
      0 ≤ c.pointToIndex p ∧ c.pointToIndex p < c.size) ∧
    Core.pointToIndex ⟨100, 10, []⟩ ⟨10, 0⟩ = 10 ∧
    Core.pointToIndex ⟨100, 10, []⟩ ⟨-1, 0⟩ = 99 ∧
    Core.pointToIndex ⟨100, 10, []⟩ ⟨0, 10⟩ = 1 ∧
    Core.pointToIndex ⟨100, 10, []⟩ ⟨-1, -1⟩ = 88 := by
  refine ⟨?_, by decide, by decide, by decide, by decide⟩
  intro c p hw hh hsz
  have hw' : (0 : Int) < c.width := by exact_mod_cast hw
  have hh' : (0 : Int) < c.height := by exact_mod_cast hh
  have hfy0 : 0 ≤ Int.fmod (p.y + Int.fdiv p.x c.width) c.height :=
    Int.fmod_nonneg' _ hh'
  have hfy1 : Int.fmod (p.y + Int.fdiv p.x c.width) c.height < c.height :=
    Int.fmod_lt_of_pos _ hh'
  have hfx0 : 0 ≤ Int.fmod (Int.fmod p.x c.width + Int.fdiv p.y c.height) c.width :=
    Int.fmod_nonneg' _ hw'
  have hfx1 : Int.fmod (Int.fmod p.x c.width + Int.fdiv p.y c.height) c.width < c.width :=
    Int.fmod_lt_of_pos _ hw'
  refine ⟨?_, ?_, ?_⟩
  · simp only [Core.pointToIndex, specIndex]
    rw [Int.fmod_eq_emod _ (Int.le_of_lt hh'), Int.fmod_eq_emod _ (Int.le_of_lt hw'),
      Int.fmod_eq_emod _ (Int.le_of_lt hw')]
  · simp only [Core.pointToIndex]
    have := Int.mul_nonneg hfy0 (Int.le_of_lt hw')
    omega
  · simp only [Core.pointToIndex]
    have hsz' : (c.size : Int) = (c.width : Int) * (c.height : Int) := by
      exact_mod_cast hsz
    nlinarith [hfy0, hfy1, hfx0, hfx1, hw', hh']

theorem point_to_index_correct_witness :
    (0 < (Core.width ⟨100, 10, []⟩) ∧ 0 < (Core.height ⟨100, 10, []⟩) ∧
      (Core.size ⟨100, 10, []⟩) = (Core.width ⟨100, 10, []⟩) * (Core.height ⟨100, 10, []⟩)) ∧
    (Core.pointToIndex ⟨100, 10, []⟩ ⟨3, 4⟩ = specIndex 10 10 ⟨3, 4⟩ ∧
      0 ≤ Core.pointToIndex ⟨100, 10, []⟩ ⟨3, 4⟩ ∧
      Core.pointToIndex ⟨100, 10, []⟩ ⟨3, 4⟩ < 100) :=
  ⟨⟨by decide, by decide, by decide⟩,
    point_to_index_correct.1 ⟨100, 10, []⟩ ⟨3, 4⟩ (by decide) (by decide) (by decide)⟩

/-- C10: every point appended to a task queue by `MARS.enqueue` has been
normalized by `Core.trim` and so lies in `[0, width) × [0, height)`: below
the process cap the queue grows by exactly `trim p`, and any member of the
resulting queue is either an old member or canonically in bounds. -/
theorem enqueue_appends_trimmed (c : Core) (maxProcesses : Nat) (q : List Point2D)
    (p : Point2D) (hw : 0 < c.width) (hh : 0 < c.height) :
    (q.length < maxProcesses → enqueue c maxProcesses q p = q ++ [c.trim p]) ∧
    (∀ r ∈ enqueue c maxProcesses q p, r ∈ q ∨
      (0 ≤ r.x ∧ r.x < c.width ∧ 0 ≤ r.y ∧ r.y < c.height)) := by
  constructor
  · intro h
    simp [enqueue, h]
  · intro r hr
    by_cases h : q.length < maxProcesses
    · simp only [enqueue, if_pos h, List.mem_append, List.mem_singleton] at hr
      rcases hr with h1 | h2
      · exact Or.inl h1
      · subst h2
        exact Or.inr (trim_bounds c p hw hh)
    · simp only [enqueue, if_neg h] at hr
      exact Or.inl hr

theorem enqueue_appends_trimmed_witness :
    (0 < (Core.width ⟨100, 10, []⟩) ∧ 0 < (Core.height ⟨100, 10, []⟩)) ∧
    (([] : List Point2D).length < 5 →
      enqueue ⟨100, 10, []⟩ 5 [] ⟨-1, -1⟩ = [] ++ [Core.trim ⟨100, 10, []⟩ ⟨-1, -1⟩]) ∧
    (∀ r ∈ enqueue ⟨100, 10, []⟩ 5 [] ⟨-1, -1⟩, r ∈ ([] : List Point2D) ∨
      (0 ≤ r.x ∧ r.x < (10 : Nat) ∧ 0 ≤ r.y ∧ r.y < (10 : Nat))) :=
  ⟨⟨by decide, by decide⟩,
    enqueue_appends_trimmed ⟨100, 10, []⟩ 5 [] ⟨-1, -1⟩ (by decide) (by decide)⟩

/-- `MARS.increment_by_stepping` from `mars.py` lines 159-180: move a point
by `amount` along the axis and direction selected by the stepping mode. -/
def incrementByStepping (p : Point2D) (amount : Int) (stepping : Stepping) : Point2D :=
  match stepping with
  | .normal => ⟨p.x + amount, p.y⟩
  | .vertical => ⟨p.x, p.y + amount⟩
  | .backward => ⟨p.x - amount, p.y⟩
  | .verticalBackward => ⟨p.x, p.y - amount⟩

/-- The value `Point2D(read_point.x + f, 0)` built on `mars.py` lines
205-209, where `f` is the pointed-to field (a `Point2D`):
`int + Point2D` dispatches to `Point2D.__radd__`, giving
`Point2D(rp.x + f.x, f.y)`, and the outer `Point2D(point, 0)` constructor
copies both components of its first argument, ignoring the `0`. -/
def indirectPoint (rpx : Int) (f : Point2D) : Point2D :=
  ⟨rpx + f.x, f.y⟩

/-- `MARS.evaluate_operand` from `mars.py` lines 182-213.  Returns
`(read_point, write_point, pip_point, updated core)`; the core changes only
through the pre-decrement side effect. -/
def evaluateOperand (c : Core) (pc : Point2D) (number : Point2D) (mode : Nat)
    (stepping : Stepping) : Point2D × Point2D × Option Point2D × Core :=
  if mode = IMMEDIATE then (⟨0, 0⟩, ⟨0, 0⟩, none, c)
  else
    let rp := number
    let wp := number
    if mode = DIRECT then (rp, wp, none, c)
    else
      let pip : Point2D := ⟨pc.x + wp.x, pc.y + wp.y⟩
      let c1 :=
        if mode = PREDEC_A then
          let ins := c.getInstr pip
          c.setInstr pip { ins with aNumber := incrementByStepping ins.aNumber (-1) stepping }
        else if mode = PREDEC_B then
          let ins := c.getInstr pip
          c.setInstr pip { ins with bNumber := incrementByStepping ins.bNumber (-1) stepping }
        else c
      if mode = PREDEC_A ∨ mode = INDIRECT_A ∨ mode = POSTINC_A then
        let rp1 := indirectPoint rp.x (c1.getInstr ⟨pc.x + rp.x, pc.y + rp.y⟩).aNumber
        let wp1 := indirectPoint wp.x (c1.getInstr ⟨pc.x + wp.x, pc.y + wp.y⟩).aNumber
        (rp1, wp1, some pip, c1)
      else
        let rp1 := indirectPoint rp.x (c1.getInstr ⟨pc.x + rp.x, pc.y + rp.y⟩).bNumber
        let wp1 := indirectPoint wp.x (c1.getInstr ⟨pc.x + wp.x, pc.y + wp.y⟩).bNumber
        (rp1, wp1, some pip, c1)

/-- `MARS.handle_post_increment` from `mars.py` lines 215-226. -/
def handlePostIncrement (c : Core) (pip : Option Point2D) (mode : Nat)
    (stepping : Stepping) : Core :=
  match pip with
  | none => c
  | some p =>
    if mode = POSTINC_A then
      let ins := c.getInstr p
      c.setInstr p { ins with aNumber := incrementByStepping ins.aNumber 1 stepping }
    else if mode = POSTINC_B then
      let ins := c.getInstr p
      c.setInstr p { ins with bNumber := incrementByStepping ins.bNumber 1 stepping }
    else c

/-- The core after the `PREDEC_A` side effect of `evaluate_operand`
(`mars.py` lines 195-197): the a-field of the pointed-to cell is stepped by
`-1`. -/
def predecCoreA (c : Core) (pip : Point2D) (s : Stepping) : Core :=
  let ins := c.getInstr pip
  c.setInstr pip { ins with aNumber := incrementByStepping ins.aNumber (-1) s }

/-- The core after the `PREDEC_B` side effect of `evaluate_operand`
(`mars.py` lines 198-201): the b-field of the pointed-to cell is stepped by
`-1`. -/
def predecCoreB (c : Core) (pip : Point2D) (s : Stepping) : Core :=
  let ins := c.getInstr pip
  c.setInstr pip { ins with bNumber := incrementByStepping ins.bNumber (-1) s }

/-- A one-cell core whose single cell carries the given a-field; used as a
concrete counterexample state (every point maps to index 0). -/
def oneCellCore (a : Point2D) : Core :=
  ⟨1, 1, [{ blankInstr with aNumber := a }]⟩

/-- C2 counterexample: on a core whose pointed-to cell has `a_value = (0,0)`,
an `INDIRECT_A` operand with value `(1,1)` yields read point `(1,0)`, not the
claimed full two-axis sum `(1,1) + (0,0) = (1,1)`: the evaluator discards the
operand value's y component. -/
theorem evaluate_operand_indirect_a_counterexample :
    (evaluateOperand (oneCellCore ⟨0, 0⟩) ⟨0, 0⟩ ⟨1, 1⟩ INDIRECT_A .normal).1 = ⟨1, 0⟩ ∧
    ¬((evaluateOperand (oneCellCore ⟨0, 0⟩) ⟨0, 0⟩ ⟨1, 1⟩ INDIRECT_A .normal).1 =
      ⟨(1 : Int) + 0, (1 : Int) + 0⟩) := by
  constructor
  · decide
  · decide

/-- C2 amended: for the indirect and post-increment modes the read and write
points are `(v.x + f.x, f.y)` where `f` is the pointed-to field — the x
components add, but the resulting y component is the pointed-to field's y
alone, the operand value's y being discarded; for the pre-decrement modes the
same holds with `f` the already-decremented field.  The pointed-to cell is
`cell(pc + v)` in both axes, and `pip_point = pc + v`. -/
theorem evaluate_operand_indirect (c : Core) (pc v : Point2D) (s : Stepping) :
    (evaluateOperand c pc v INDIRECT_A s =
      (⟨v.x + (c.getInstr ⟨pc.x + v.x, pc.y + v.y⟩).aNumber.x,
        (c.getInstr ⟨pc.x + v.x, pc.y + v.y⟩).aNumber.y⟩,
       ⟨v.x + (c.getInstr ⟨pc.x + v.x, pc.y + v.y⟩).aNumber.x,
        (c.getInstr ⟨pc.x + v.x, pc.y + v.y⟩).aNumber.y⟩,
       some ⟨pc.x + v.x, pc.y + v.y⟩, c)) ∧
    (evaluateOperand c pc v INDIRECT_B s =
      (⟨v.x + (c.getInstr ⟨pc.x + v.x, pc.y + v.y⟩).bNumber.x,
        (c.getInstr ⟨pc.x + v.x, pc.y + v.y⟩).bNumber.y⟩,
       ⟨v.x + (c.getInstr ⟨pc.x + v.x, pc.y + v.y⟩).bNumber.x,
        (c.getInstr ⟨pc.x + v.x, pc.y + v.y⟩).bNumber.y⟩,
       some ⟨pc.x + v.x, pc.y + v.y⟩, c)) ∧
    (evaluateOperand c pc v POSTINC_A s =
      (⟨v.x + (c.getInstr ⟨pc.x + v.x, pc.y + v.y⟩).aNumber.x,
        (c.getInstr ⟨pc.x + v.x, pc.y + v.y⟩).aNumber.y⟩,
       ⟨v.x + (c.getInstr ⟨pc.x + v.x, pc.y + v.y⟩).aNumber.x,
        (c.getInstr ⟨pc.x + v.x, pc.y + v.y⟩).aNumber.y⟩,
       some ⟨pc.x + v.x, pc.y + v.y⟩, c)) ∧
    (evaluateOperand c pc v POSTINC_B s =
      (⟨v.x + (c.getInstr ⟨pc.x + v.x, pc.y + v.y⟩).bNumber.x,
        (c.getInstr ⟨pc.x + v.x, pc.y + v.y⟩).bNumber.y⟩,
       ⟨v.x + (c.getInstr ⟨pc.x + v.x, pc.y + v.y⟩).bNumber.x,
        (c.getInstr ⟨pc.x + v.x, pc.y + v.y⟩).bNumber.y⟩,
       some ⟨pc.x + v.x, pc.y + v.y⟩, c)) ∧
    (evaluateOperand c pc v PREDEC_A s =
      (⟨v.x + ((predecCoreA c ⟨pc.x + v.x, pc.y + v.y⟩ s).getInstr
          ⟨pc.x + v.x, pc.y + v.y⟩).aNumber.x,
        ((predecCoreA c ⟨pc.x + v.x, pc.y + v.y⟩ s).getInstr
          ⟨pc.x + v.x, pc.y + v.y⟩).aNumber.y⟩,
       ⟨v.x + ((predecCoreA c ⟨pc.x + v.x, pc.y + v.y⟩ s).getInstr
          ⟨pc.x + v.x, pc.y + v.y⟩).aNumber.x,
        ((predecCoreA c ⟨pc.x + v.x, pc.y + v.y⟩ s).getInstr
          ⟨pc.x + v.x, pc.y + v.y⟩).aNumber.y⟩,
       some ⟨pc.x + v.x, pc.y + v.y⟩, predecCoreA c ⟨pc.x + v.x, pc.y + v.y⟩ s)) ∧
    (evaluateOperand c pc v PREDEC_B s =
      (⟨v.x + ((predecCoreB c ⟨pc.x + v.x, pc.y + v.y⟩ s).getInstr
          ⟨pc.x + v.x, pc.y + v.y⟩).bNumber.x,
        ((predecCoreB c ⟨pc.x + v.x, pc.y + v.y⟩ s).getInstr
          ⟨pc.x + v.x, pc.y + v.y⟩).bNumber.y⟩,
       ⟨v.x + ((predecCoreB c ⟨pc.x + v.x, pc.y + v.y⟩ s).getInstr
          ⟨pc.x + v.x, pc.y + v.y⟩).bNumber.x,
        ((predecCoreB c ⟨pc.x + v.x, pc.y + v.y⟩ s).getInstr
          ⟨pc.x + v.x, pc.y + v.y⟩).bNumber.y⟩,
       some ⟨pc.x + v.x, pc.y + v.y⟩, predecCoreB c ⟨pc.x + v.x, pc.y + v.y⟩ s)) := by
  refine ⟨?_, ?_, ?_, ?_, ?_, ?_⟩
  · simp [evaluateOperand, indirectPoint, INDIRECT_A, IMMEDIATE, DIRECT, PREDEC_A, PREDEC_B,
      POSTINC_A]
  · simp [evaluateOperand, indirectPoint, INDIRECT_B, IMMEDIATE, DIRECT, PREDEC_A, PREDEC_B,
      INDIRECT_A, POSTINC_A]
  · simp [evaluateOperand, indirectPoint, POSTINC_A, IMMEDIATE, DIRECT, PREDEC_A, PREDEC_B]
  · simp [evaluateOperand, indirectPoint, POSTINC_B, IMMEDIATE, DIRECT, PREDEC_A, PREDEC_B,
      INDIRECT_A, POSTINC_A]
  · simp [evaluateOperand, indirectPoint, predecCoreA, PREDEC_A, IMMEDIATE, DIRECT]
  · simp [evaluateOperand, indirectPoint, predecCoreB, PREDEC_B, IMMEDIATE, DIRECT, PREDEC_A,
      INDIRECT_A, POSTINC_A]

/-- Python `Point2D.__add__` with a `Point2D` argument: component-wise sum. -/
def pyAdd (p q : Point2D) : Option Point2D := some ⟨p.x + q.x, p.y + q.y⟩

/-- Python `Point2D.__sub__` with a `Point2D` argument: component-wise
difference. -/
def pySub (p q : Point2D) : Option Point2D := some ⟨p.x - q.x, p.y - q.y⟩

/-- Python `Point2D.__mul__` with a `Point2D` argument: component-wise
product. -/
def pyMul (p q : Point2D) : Option Point2D := some ⟨p.x * q.x, p.y * q.y⟩

/-- Python `Point2D.__truediv__` with a `Point2D` argument (`redcode.py`
lines 184-187): floored division of the x components keeping the left
operand's y; `ZeroDivisionError` (here `none`) when the divisor's x is 0. -/
def pyDiv (p q : Point2D) : Option Point2D :=
  if q.x = 0 then none else some ⟨Int.fdiv p.x q.x, p.y⟩

/-- Python `Point2D.__mod__` with a `Point2D` argument (`redcode.py` lines
192-195): floored remainder of the x components keeping the left operand's
y; `ZeroDivisionError` (here `none`) when the divisor's x is 0. -/
def pyMod (p q : Point2D) : Option Point2D :=
  if q.x = 0 then none else some ⟨Int.fmod p.x q.x, p.y⟩

/-- Python `Point2D.__lt__`: compares the x components only. -/
def pyLt (p q : Point2D) : Bool := p.x < q.x

/-- Python `Point2D.__eq__` on two points: both components. -/
def pyEqB (p q : Point2D) : Bool := p == q

/-- Python `Point2D.__ne__` (negation of `__eq__`). -/
def pyNeB (p q : Point2D) : Bool := !(p == q)

/-- Python `Instruction.__eq__` (`redcode.py` lines 351-355): compares
opcode, modifier, modes, operand values and stepping — but not energy. -/
def instrPyEq (i j : Instr) : Bool :=
  i.opcode == j.opcode && i.modifier == j.modifier &&
  i.aMode == j.aMode && i.aNumber == j.aNumber &&
  i.bMode == j.bMode && i.bNumber == j.bNumber &&
  i.stepping == j.stepping

/-- Modelled from the spec: `Instruction.move_energy` is called at
`mars.py` line 279 but is not defined anywhere under `src/`.  Spec §4.4:
"`MOV` in energy-mode transfers energy by equalizing:
`src.energy, dst.energy ← ⌊(src+dst)/2⌋, ⌈(src+dst)/2⌉`".  The call site is
`target_instruction.move_energy(ira)`, so the receiver is the destination
cell and the argument is the source (the instruction-register copy); the
destination object receives the ⌈·⌉ half and the argument object the ⌊·⌋
half.  Returns (updated destination, updated source copy). -/
def moveEnergy (dst src : Instr) : Instr × Instr :=
  let s := src.energy + dst.energy
  ({ dst with energy := Int.fdiv (s + 1) 2 }, { src with energy := Int.fdiv s 2 })

/-- `MARS.execute_mov` from `mars.py` lines 271-318.  The target cell is
mutated in place in Python; each branch below writes the final cell value.
`none` models the uncaught `ValueError` on an invalid modifier.  Event
emission (`core_event`) is a no-op in the base `MARS` class and is elided. -/
def executeMov (em : Bool) (c : Core) (maxP : Nat) (q : List Point2D)
    (pc : Point2D) (ir ira : Instr) (wpb : Point2D) :
    Option (Core × List Point2D) :=
  let targetPoint : Point2D := ⟨pc.x + wpb.x, pc.y + wpb.y⟩
  let target0 := c.getInstr targetPoint
  let pair := if em then moveEnergy target0 ira else (target0, ira)
  let target1 := pair.1
  let ira1 := pair.2
  if ir.modifier = M_A then
    let c1 := c.setInstr targetPoint { target1 with aNumber := ira1.aNumber }
    some (c1, enqueue c1 maxP q (incrementByStepping pc 1 ir.stepping))
  else if ir.modifier = M_B then
    let c1 := c.setInstr targetPoint { target1 with bNumber := ira1.bNumber }
    some (c1, enqueue c1 maxP q (incrementByStepping pc 1 ir.stepping))
  else if ir.modifier = M_AB then
    let c1 := c.setInstr targetPoint { target1 with bNumber := ira1.aNumber }
    some (c1, enqueue c1 maxP q (incrementByStepping pc 1 ir.stepping))
  else if ir.modifier = M_BA then
    let c1 := c.setInstr targetPoint { target1 with aNumber := ira1.bNumber }
    some (c1, enqueue c1 maxP q (incrementByStepping pc 1 ir.stepping))
  else if ir.modifier = M_F then
    let c1 := c.setInstr targetPoint
      { target1 with aNumber := ira1.aNumber, bNumber := ira1.bNumber }
    some (c1, enqueue c1 maxP q (incrementByStepping pc 1 ir.stepping))
  else if ir.modifier = M_X then
    let c1 := c.setInstr targetPoint
      { target1 with bNumber := ira1.aNumber, aNumber := ira1.bNumber }
    some (c1, enqueue c1 maxP q (incrementByStepping pc 1 ir.stepping))
  else if ir.modifier = M_I then
    let c1 := c.setInstr targetPoint ira1
    some (c1, enqueue c1 maxP q (incrementByStepping pc 1 ir.stepping))
  else none

/-- `MARS.do_arithmetic` from `mars.py` lines 426-479: per-modifier
projection, with `none` from the operation standing for a
`ZeroDivisionError`, which the surrounding `try` turns into "no successor
enqueued" (intermediate writes already made are kept, as in Python).
`MARS.normalize` (line 267-269) is the identity and is elided.  An invalid
modifier raises `ValueError` (not caught), modelled as `none`. -/
def doArithmetic (c : Core) (maxP : Nat) (q : List Point2D) (pc : Point2D)
    (ir ira irb : Instr) (wpb : Point2D)
    (op : Point2D → Point2D → Option Point2D) : Option (Core × List Point2D) :=
  let targetPoint : Point2D := ⟨pc.x + wpb.x, pc.y + wpb.y⟩
  if ir.modifier = M_A then
    match op irb.aNumber ira.aNumber with
    | none => some (c, q)
    | some v =>
      let t := c.getInstr targetPoint
      let c1 := c.setInstr targetPoint { t with aNumber := v }
      some (c1, enqueue c1 maxP q (incrementByStepping pc 1 ir.stepping))
  else if ir.modifier = M_B then
    match op irb.bNumber ira.bNumber with
    | none => some (c, q)
    | some v =>
      let t := c.getInstr targetPoint
      let c1 := c.setInstr targetPoint { t with bNumber := v }
      some (c1, enqueue c1 maxP q (incrementByStepping pc 1 ir.stepping))
  else if ir.modifier = M_AB then
    match op irb.bNumber ira.aNumber with
    | none => some (c, q)
    | some v =>
      let t := c.getInstr targetPoint
      let c1 := c.setInstr targetPoint { t with bNumber := v }
      some (c1, enqueue c1 maxP q (incrementByStepping pc 1 ir.stepping))
  else if ir.modifier = M_BA then
    match op irb.bNumber ira.aNumber with
    | none => some (c, q)
    | some v =>
      let t := c.getInstr targetPoint
      let c1 := c.setInstr targetPoint { t with aNumber := v }
      some (c1, enqueue c1 maxP q (incrementByStepping pc 1 ir.stepping))
  else if ir.modifier = M_F ∨ ir.modifier = M_I then
    match op irb.aNumber ira.aNumber with
    | none => some (c, q)
    | some va =>
      let t := c.getInstr targetPoint
      let c1 := c.setInstr targetPoint { t with aNumber := va }
      match op irb.bNumber ira.bNumber with
      | none => some (c1, q)
      | some vb =>
        let t2 := c1.getInstr targetPoint
        let c2 := c1.setInstr targetPoint { t2 with bNumber := vb }
        some (c2, enqueue c2 maxP q (incrementByStepping pc 1 ir.stepping))
  else if ir.modifier = M_X then
    match op irb.bNumber ira.aNumber with
    | none => some (c, q)
    | some vb =>
      let t := c.getInstr targetPoint
      let c1 := c.setInstr targetPoint { t with bNumber := vb }
      match op irb.aNumber ira.bNumber with
      | none => some (c1, q)
      | some va =>
        let t2 := c1.getInstr targetPoint
        let c2 := c1.setInstr targetPoint { t2 with aNumber := va }
        some (c2, enqueue c2 maxP q (incrementByStepping pc 1 ir.stepping))
  else none

/-- `MARS.execute_jmz` from `mars.py` lines 320-336. -/
def executeJmz (c : Core) (maxP : Nat) (q : List Point2D) (pc : Point2D)
    (ir irb : Instr) (rpa : Point2D) : Option (Core × List Point2D) :=
  let rpaPoint : Point2D := ⟨pc.x + rpa.x, pc.y + rpa.y⟩
  let nextPoint := incrementByStepping pc 1 ir.stepping
  if ir.modifier = M_A ∨ ir.modifier = M_BA then
    some (c, enqueue c maxP q (if irb.aNumber = ⟨0, 0⟩ then rpaPoint else nextPoint))
  else if ir.modifier = M_B ∨ ir.modifier = M_AB then
    some (c, enqueue c maxP q (if irb.bNumber = ⟨0, 0⟩ then rpaPoint else nextPoint))
  else if ir.modifier = M_F ∨ ir.modifier = M_X ∨ ir.modifier = M_I then
    some (c, enqueue c maxP q
      (if irb.aNumber = irb.bNumber ∧ irb.bNumber = ⟨0, 0⟩ then rpaPoint else nextPoint))
  else none

/-- `MARS.execute_jmn` from `mars.py` lines 338-354. -/
def executeJmn (c : Core) (maxP : Nat) (q : List Point2D) (pc : Point2D)
    (ir irb : Instr) (rpa : Point2D) : Option (Core × List Point2D) :=
  let rpaPoint : Point2D := ⟨pc.x + rpa.x, pc.y + rpa.y⟩
  let nextPoint := incrementByStepping pc 1 ir.stepping
  if ir.modifier = M_A ∨ ir.modifier = M_BA then
    some (c, enqueue c maxP q (if ¬(irb.aNumber = ⟨0, 0⟩) then rpaPoint else nextPoint))
  else if ir.modifier = M_B ∨ ir.modifier = M_AB then
    some (c, enqueue c maxP q (if ¬(irb.bNumber = ⟨0, 0⟩) then rpaPoint else nextPoint))
  else if ir.modifier = M_F ∨ ir.modifier = M_X ∨ ir.modifier = M_I then
    some (c, enqueue c maxP q
      (if ¬(irb.aNumber = ⟨0, 0⟩) ∨ ¬(irb.bNumber = ⟨0, 0⟩) then rpaPoint else nextPoint))
  else none

/-- `MARS.execute_djn` from `mars.py` lines 356-385: decrement the target
cell's projected field(s) and the captured `irb` copy, then jump as JMN. -/
def executeDjn (c : Core) (maxP : Nat) (q : List Point2D) (pc : Point2D)
    (ir irb : Instr) (rpa wpb : Point2D) : Option (Core × List Point2D) :=
  let targetPoint : Point2D := ⟨pc.x + wpb.x, pc.y + wpb.y⟩
  let rpaPoint : Point2D := ⟨pc.x + rpa.x, pc.y + rpa.y⟩
  let nextPoint := incrementByStepping pc 1 ir.stepping
  if ir.modifier = M_A ∨ ir.modifier = M_BA then
    let t := c.getInstr targetPoint
    let c1 := c.setInstr targetPoint { t with aNumber := ⟨t.aNumber.x - 1, t.aNumber.y⟩ }
    let irbA : Point2D := ⟨irb.aNumber.x - 1, irb.aNumber.y⟩
    some (c1, enqueue c1 maxP q (if ¬(irbA = ⟨0, 0⟩) then rpaPoint else nextPoint))
  else if ir.modifier = M_B ∨ ir.modifier = M_AB then
    let t := c.getInstr targetPoint
    let c1 := c.setInstr targetPoint { t with bNumber := ⟨t.bNumber.x - 1, t.bNumber.y⟩ }
    let irbB : Point2D := ⟨irb.bNumber.x - 1, irb.bNumber.y⟩
    some (c1, enqueue c1 maxP q (if ¬(irbB = ⟨0, 0⟩) then rpaPoint else nextPoint))
  else if ir.modifier = M_F ∨ ir.modifier = M_X ∨ ir.modifier = M_I then
    let t := c.getInstr targetPoint
    let c1 := c.setInstr targetPoint { t with aNumber := ⟨t.aNumber.x - 1, t.aNumber.y⟩ }
    let t2 := c1.getInstr targetPoint
    let c2 := c1.setInstr targetPoint { t2 with bNumber := ⟨t2.bNumber.x - 1, t2.bNumber.y⟩ }
    let irbA : Point2D := ⟨irb.aNumber.x - 1, irb.aNumber.y⟩
    let irbB : Point2D := ⟨irb.bNumber.x - 1, irb.bNumber.y⟩
    some (c2, enqueue c2 maxP q
      (if ¬(irbA = ⟨0, 0⟩) ∨ ¬(irbB = ⟨0, 0⟩) then rpaPoint else nextPoint))
  else none

/-- `MARS.do_comparison` from `mars.py` lines 481-529.  For modifier `I`
the source compares whole instructions with `Instruction.__eq__` regardless
of the comparison operator passed in. -/
def doComparison (c : Core) (maxP : Nat) (q : List Point2D) (pc : Point2D)
    (ir ira irb : Instr) (cmp : Point2D → Point2D → Bool) :
    Option (Core × List Point2D) :=
  let nextPoint := incrementByStepping pc 1 ir.stepping
  let jumpPoint := incrementByStepping pc 2 ir.stepping
  if ir.modifier = M_A then
    some (c, enqueue c maxP q (if cmp ira.aNumber irb.aNumber then jumpPoint else nextPoint))
  else if ir.modifier = M_B then
    some (c, enqueue c maxP q (if cmp ira.bNumber irb.bNumber then jumpPoint else nextPoint))
  else if ir.modifier = M_AB then
    some (c, enqueue c maxP q (if cmp ira.aNumber irb.bNumber then jumpPoint else nextPoint))
  else if ir.modifier = M_BA then
    some (c, enqueue c maxP q (if cmp ira.bNumber irb.aNumber then jumpPoint else nextPoint))
  else if ir.modifier = M_F then
    some (c, enqueue c maxP q
      (if cmp ira.aNumber irb.aNumber && cmp ira.bNumber irb.bNumber then jumpPoint
       else nextPoint))
  else if ir.modifier = M_X then
    some (c, enqueue c maxP q
      (if cmp ira.aNumber irb.bNumber && cmp ira.bNumber irb.aNumber then jumpPoint
       else nextPoint))
  else if ir.modifier = M_I then
    some (c, enqueue c maxP q (if instrPyEq ira irb then jumpPoint else nextPoint))
  else none

/-- `MARS.execute_instruction` from `mars.py` lines 228-265: dispatch on
the opcode.  `none` models the uncaught `ValueError` on an unknown opcode. -/
def executeInstruction (em : Bool) (c : Core) (maxP : Nat) (q : List Point2D)
    (pc : Point2D) (ir ira irb : Instr) (rpa rpb wpb : Point2D) :
    Option (Core × List Point2D) :=
  if ir.opcode = DAT then some (c, q)
  else if ir.opcode = MOV then executeMov em c maxP q pc ir ira wpb
  else if ir.opcode = ADD then doArithmetic c maxP q pc ir ira irb wpb pyAdd
  else if ir.opcode = SUB then doArithmetic c maxP q pc ir ira irb wpb pySub
  else if ir.opcode = MUL then doArithmetic c maxP q pc ir ira irb wpb pyMul
  else if ir.opcode = DIV then doArithmetic c maxP q pc ir ira irb wpb pyDiv
  else if ir.opcode = MOD then doArithmetic c maxP q pc ir ira irb wpb pyMod
  else if ir.opcode = JMP then
    some (c, enqueue c maxP q ⟨pc.x + rpa.x, pc.y + rpa.y⟩)
  else if ir.opcode = JMZ then executeJmz c maxP q pc ir irb rpa
  else if ir.opcode = JMN then executeJmn c maxP q pc ir irb rpa
  else if ir.opcode = DJN then executeDjn c maxP q pc ir irb rpa wpb
  else if ir.opcode = SPL then
    let q1 := enqueue c maxP q (incrementByStepping pc 1 ir.stepping)
    some (c, enqueue c maxP q1 ⟨pc.x + rpa.x, pc.y + rpa.y⟩)
  else if ir.opcode = SLT then doComparison c maxP q pc ir ira irb pyLt
  else if ir.opcode = CMP ∨ ir.opcode = SEQ then doComparison c maxP q pc ir ira irb pyEqB
  else if ir.opcode = SNE then doComparison c maxP q pc ir ira irb pyNeB
  else if ir.opcode = NOP then
    some (c, enqueue c maxP q (incrementByStepping pc 1 ir.stepping))
  else none

/-- Modelled from the spec: `Instruction.has_energy` is called at `mars.py`
line 402 but is not defined anywhere under `src/`.  Spec §4.4: "Before
executing, the engine checks `cell(pc).energy > 0`". -/
def hasEnergy (i : Instr) : Bool := 0 < i.energy

/-- Modelled from the spec: `Instruction.consume_energy` is called at
`mars.py` line 420 but is not defined anywhere under `src/`.  Spec §4.4/§4.5:
"On execution, one unit is consumed from the executing cell"; returns `none`
when there is no energy to consume (the engine then skips execution). -/
def consumeEnergy (c : Core) (pc : Point2D) : Option Core :=
  let cur := c.getInstr pc
  if 0 < cur.energy then some (c.setInstr pc { cur with energy := cur.energy - 1 })
  else none

/-- The body of the per-warrior loop of `MARS.step` (`mars.py` lines
389-424) for one warrior whose task queue is `q`: pop the front program
counter, check energy, evaluate the A-operand, capture `IRA`, fire the A
post-increment, evaluate the B-operand, capture `IRB`, fire the B
post-increment, consume energy, and execute.  Returns the updated core and
task queue, or `none` for an uncaught exception. -/
def stepOneWarrior (em : Bool) (maxP : Nat) (c : Core) (q : List Point2D) :
    Option (Core × List Point2D) :=
  match q with
  | [] => some (c, [])
  | pc :: rest =>
    let ir := c.getInstr pc
    if em ∧ ¬(hasEnergy ir = true) then some (c, rest)
    else
      let ra := evaluateOperand c pc ir.aNumber ir.aMode ir.stepping
      let rpa := ra.1
      let pipA := ra.2.2.1
      let c1 := ra.2.2.2
      let ira := c1.getInstr ⟨pc.x + rpa.x, pc.y + rpa.y⟩
      let c2 := handlePostIncrement c1 pipA ir.aMode ir.stepping
      let rb := evaluateOperand c2 pc ir.bNumber ir.bMode ir.stepping
      let rpb := rb.1
      let wpb := rb.2.1
      let pipB := rb.2.2.1
      let c3 := rb.2.2.2
      let irb := c3.getInstr ⟨pc.x + rpb.x, pc.y + rpb.y⟩
      let c4 := handlePostIncrement c3 pipB ir.bMode ir.stepping
      if em then
        match consumeEnergy c4 pc with
        | some c5 => executeInstruction em c5 maxP rest pc ir ira irb rpa rpb wpb
        | none => some (c4, rest)
      else executeInstruction em c4 maxP rest pc ir ira irb rpa rpb wpb

theorem getD_set_self_of_lt {α : Type} {l : List α} {i : Nat} (h : i < l.length)
    (a d : α) : (l.set i a).getD i d = a := by
  simp [List.getD_eq_getElem?_getD, List.getElem?_set_self h]

theorem getD_set_of_ne {α : Type} {l : List α} {i j : Nat} (h : i ≠ j)
    (a d : α) : (l.set i a).getD j d = l.getD j d := by
  simp [List.getD_eq_getElem?_getD, List.getElem?_set_ne h]

theorem getInstr_setInstr_self (c : Core) (p : Point2D) (i : Instr)
    (h : (c.pointToIndex p).toNat < c.instructions.length) :
    (c.setInstr p i).getInstr p = i := by
  show (c.instructions.set (c.pointToIndex p).toNat i).getD (c.pointToIndex p).toNat
    blankInstr = i
  exact getD_set_self_of_lt h i blankInstr

theorem getInstr_setInstr_ne (c : Core) (p q : Point2D) (i : Instr)
    (h : (c.pointToIndex q).toNat ≠ (c.pointToIndex p).toNat) :
    (c.setInstr p i).getInstr q = c.getInstr q := by
  show (c.instructions.set (c.pointToIndex p).toNat i).getD (c.pointToIndex q).toNat
    blankInstr = c.instructions.getD (c.pointToIndex q).toNat blankInstr
  exact getD_set_of_ne (Ne.symm h) i blankInstr

/-- The `ADD.BA` instruction register used in the C4 evaluation. -/
def irAddBA : Instr :=
  { opcode := ADD, modifier := M_BA, stepping := .normal, aMode := DIRECT,
    aNumber := ⟨0, 0⟩, bMode := DIRECT, bNumber := ⟨0, 0⟩, energy := 0 }

/-- The resolved `IRA` register used in the C4 evaluation:
`a_value = (1,0)`, `b_value = (2,0)`. -/
def iraC4 : Instr :=
  { irAddBA with aNumber := ⟨1, 0⟩, bNumber := ⟨2, 0⟩ }

/-- The resolved `IRB` register used in the C4 evaluation:
`a_value = (30,0)`, `b_value = (40,0)`. -/
def irbC4 : Instr :=
  { irAddBA with aNumber := ⟨30, 0⟩, bNumber := ⟨40, 0⟩ }

/-- C4: evaluating `do_arithmetic` with modifier `BA` at
`IRA = (a=1, b=2)`, `IRB = (a=30, b=40)` under ADD writes `41 = IRB.b + IRA.a`
into the target's a-field, not the `32 = IRB.a + IRA.b` required by the
modifier projection table (and by the `M_BA` documentation in `redcode.py`):
the `M_BA` branch of `do_arithmetic` reads the same field pair as `M_AB`.
No other field of the target cell changes. -/
theorem do_arithmetic_ba_swapped_fields :
    (doArithmetic (oneCellCore ⟨9, 9⟩) 8 [] ⟨0, 0⟩ irAddBA iraC4 irbC4 ⟨0, 0⟩ pyAdd =
      some (⟨1, 1, [{ blankInstr with aNumber := ⟨41, 0⟩ }]⟩, [⟨0, 0⟩])) ∧
    ¬((Point2D.mk 41 0) = ⟨30 + 2, 0⟩) := by
  constructor
  · decide
  · decide

/-- The condition "the divisor field(s) of IRA that `do_arithmetic` divides
by under this modifier are zero" (`mars.py` lines 435-472: the divisor is
`ira.a_number` for modifiers A, AB and BA, `ira.b_number` for B, and for
F/X/I either projected field may be the failing divisor). -/
def iraDivisorZero (m : Nat) (ira : Instr) : Prop :=
  (m = M_A ∧ ira.aNumber = ⟨0, 0⟩) ∨
  (m = M_B ∧ ira.bNumber = ⟨0, 0⟩) ∨
  (m = M_AB ∧ ira.aNumber = ⟨0, 0⟩) ∨
  (m = M_BA ∧ ira.aNumber = ⟨0, 0⟩) ∨
  ((m = M_F ∨ m = M_I) ∧ (ira.aNumber = ⟨0, 0⟩ ∨ ira.bNumber = ⟨0, 0⟩)) ∨
  (m = M_X ∧ (ira.aNumber = ⟨0, 0⟩ ∨ ira.bNumber = ⟨0, 0⟩))

/-- C6: when a DIV or MOD executes and a divisor field taken from IRA is
zero, the process dies silently: `do_arithmetic` returns normally (the
`ZeroDivisionError` is caught, no exception escapes) and the task queue is
returned unchanged — the popped task gets no successor, and nothing else is
enqueued or removed. -/
theorem div_mod_zero_divisor_kills (c : Core) (maxP : Nat) (q : List Point2D)
    (pc : Point2D) (ir ira irb : Instr) (wpb : Point2D)
    (h : iraDivisorZero ir.modifier ira) :
    Option.map Prod.snd (doArithmetic c maxP q pc ir ira irb wpb pyDiv) = some q ∧
    Option.map Prod.snd (doArithmetic c maxP q pc ir ira irb wpb pyMod) = some q := by
  have hz : ∀ p : Point2D, p = ⟨0, 0⟩ → p.x = 0 := by
    intro p hp
    rw [hp]
  rcases h with ⟨hm, ha⟩ | ⟨hm, hb⟩ | ⟨hm, ha⟩ | ⟨hm, ha⟩ | ⟨hm, hab⟩ | ⟨hm, hab⟩
  · constructor <;>
      simp [doArithmetic, hm, M_A, pyDiv, pyMod, hz _ ha]
  · constructor <;>
      simp [doArithmetic, hm, M_A, M_B, pyDiv, pyMod, hz _ hb]
  · constructor <;>
      simp [doArithmetic, hm, M_A, M_B, M_AB, pyDiv, pyMod, hz _ ha]
  · constructor <;>
      simp [doArithmetic, hm, M_A, M_B, M_AB, M_BA, pyDiv, pyMod, hz _ ha]
  · rcases hm with hm | hm <;> rcases hab with ha | hb
    · constructor <;>
        simp [doArithmetic, hm, M_A, M_B, M_AB, M_BA, M_F, pyDiv, pyMod, hz _ ha]
    · constructor <;>
      · by_cases hax : ira.aNumber.x = 0 <;>
          simp [doArithmetic, hm, M_A, M_B, M_AB, M_BA, M_F, pyDiv, pyMod, hax, hz _ hb]
    · constructor <;>
        simp [doArithmetic, hm, M_A, M_B, M_AB, M_BA, M_F, M_I, pyDiv, pyMod, hz _ ha]
    · constructor <;>
      · by_cases hax : ira.aNumber.x = 0 <;>
          simp [doArithmetic, hm, M_A, M_B, M_AB, M_BA, M_F, M_I, pyDiv, pyMod, hax, hz _ hb]
  · rcases hab with ha | hb
    · constructor <;>
      · by_cases hbx : ira.bNumber.x = 0 <;>
          simp [doArithmetic, hm, M_A, M_B, M_AB, M_BA, M_F, M_I, M_X, pyDiv, pyMod, hbx,
            hz _ ha]
    · constructor <;>
      · by_cases hax : ira.aNumber.x = 0 <;>
          simp [doArithmetic, hm, M_A, M_B, M_AB, M_BA, M_F, M_I, M_X, pyDiv, pyMod, hax,
            hz _ hb]

theorem div_mod_zero_divisor_kills_witness :
    iraDivisorZero (Instr.modifier { irAddBA with modifier := M_A }) { irAddBA with aNumber := ⟨0, 0⟩ } ∧
    (Option.map Prod.snd (doArithmetic (oneCellCore ⟨0, 0⟩) 8 [⟨0, 0⟩] ⟨0, 0⟩
        { irAddBA with modifier := M_A } { irAddBA with aNumber := ⟨0, 0⟩ } irbC4 ⟨0, 0⟩ pyDiv) =
        some [⟨0, 0⟩] ∧
     Option.map Prod.snd (doArithmetic (oneCellCore ⟨0, 0⟩) 8 [⟨0, 0⟩] ⟨0, 0⟩
        { irAddBA with modifier := M_A } { irAddBA with aNumber := ⟨0, 0⟩ } irbC4 ⟨0, 0⟩ pyMod) =
        some [⟨0, 0⟩]) :=
  ⟨Or.inl ⟨rfl, rfl⟩,
    div_mod_zero_divisor_kills (oneCellCore ⟨0, 0⟩) 8 [⟨0, 0⟩] ⟨0, 0⟩
      { irAddBA with modifier := M_A } { irAddBA with aNumber := ⟨0, 0⟩ } irbC4 ⟨0, 0⟩
      (Or.inl ⟨rfl, rfl⟩)⟩

/-- A core whose single cell has zero energy, dequeued in energy-mode. -/
def zeroEnergyCore : Core := ⟨1, 1, [blankInstr]⟩

/-- C7 counterexample: in energy-mode, dequeuing a program counter whose
cell has zero energy leaves the task queue empty — the popped task is
dropped, not requeued, so a one-task warrior's queue does not contain the
same program counters as before the cycle. -/
theorem energy_skip_not_requeued_counterexample :
    stepOneWarrior true 8 zeroEnergyCore [⟨0, 0⟩] = some (zeroEnergyCore, []) ∧
    ¬(([] : List Point2D) = [⟨0, 0⟩]) := by
  constructor
  · decide
  · decide

/-- C7 amended: in energy-mode, when the cell at the dequeued program
counter has no energy the cycle changes no core cell and the popped task is
silently dropped: the queue continues with the remaining tasks only, so a
warrior whose only task is skipped is left with an empty queue (it dies). -/
theorem energy_skip_drops_task (maxP : Nat) (c : Core) (pc : Point2D)
    (rest : List Point2D) (h : ¬(0 < (c.getInstr pc).energy)) :
    stepOneWarrior true maxP c (pc :: rest) = some (c, rest) := by
  simp [stepOneWarrior, hasEnergy, h]

theorem energy_skip_drops_task_witness :
    ¬(0 < (Core.getInstr zeroEnergyCore ⟨0, 0⟩).energy) ∧
    stepOneWarrior true 8 zeroEnergyCore [⟨0, 0⟩, ⟨5, 5⟩] = some (zeroEnergyCore, [⟨5, 5⟩]) :=
  ⟨by decide, energy_skip_drops_task 8 zeroEnergyCore ⟨0, 0⟩ [⟨5, 5⟩] (by decide)⟩

/-- The concrete energy-mode state for the C8 evaluation: the executing
cell at `(0,0)` is `MOV.A $1, $2` with energy 5, the source cell `(1,0)`
has energy 4, the destination cell `(2,0)` has energy 0. -/
def c8Cell0 : Instr :=
  { opcode := MOV, modifier := M_A, stepping := .normal, aMode := DIRECT,
    aNumber := ⟨1, 0⟩, bMode := DIRECT, bNumber := ⟨2, 0⟩, energy := 5 }

/-- The source cell of the C8 evaluation (energy 4). -/
def c8Cell1 : Instr := { blankInstr with aNumber := ⟨7, 0⟩, energy := 4 }

/-- The destination cell of the C8 evaluation (energy 0). -/
def c8Cell2 : Instr := { blankInstr with energy := 0 }

def c8Core : Core := ⟨4, 4, [c8Cell0, c8Cell1, c8Cell2, blankInstr]⟩

/-- C8 counterexample: executing `MOV.A $1, $2` in energy-mode with source
energy 4 and destination energy 0 leaves the source core cell at energy 4
(not at `⌊(4+0)/2⌋ = 2`: the equalization's floor half lands on the
discarded instruction-register copy) and sets the destination to
`⌈(4+0)/2⌉ = 2`, so the claimed conservation fails: `4 + 2 ≠ 4 + 0`. -/
theorem mov_energy_not_conserved_counterexample :
    Option.map
        (fun r => (((Prod.fst r).getInstr ⟨1, 0⟩).energy, ((Prod.fst r).getInstr ⟨2, 0⟩).energy))
        (stepOneWarrior true 8 c8Core [⟨0, 0⟩]) = some (4, 2) ∧
    ¬((4 : Int) + 2 = 4 + 0) := by
  constructor
  · decide
  · decide

/-- C8 amended: in energy-mode every executed `MOV` with a field modifier
(A, B, AB, BA, F or X) sets the destination cell's energy to
`⌈(src + dst)/2⌉` where `src` is the instruction-register copy's energy and
`dst` the destination cell's, and changes no other cell — in particular the
source core cell keeps its energy, so the source-plus-destination sum is
not conserved in general. -/
theorem execute_mov_energy_equalize (c : Core) (maxP : Nat) (q : List Point2D)
    (pc : Point2D) (ir ira : Instr) (wpb : Point2D)
    (hm : ir.modifier = M_A ∨ ir.modifier = M_B ∨ ir.modifier = M_AB ∨
      ir.modifier = M_BA ∨ ir.modifier = M_F ∨ ir.modifier = M_X)
    (hidx : (c.pointToIndex ⟨pc.x + wpb.x, pc.y + wpb.y⟩).toNat < c.instructions.length) :
    Option.map (fun r => ((Prod.fst r).getInstr ⟨pc.x + wpb.x, pc.y + wpb.y⟩).energy)
        (executeMov true c maxP q pc ir ira wpb) =
      some (Int.fdiv (ira.energy + (c.getInstr ⟨pc.x + wpb.x, pc.y + wpb.y⟩).energy + 1) 2) ∧
    ∀ p2 : Point2D,
      (c.pointToIndex p2).toNat ≠ (c.pointToIndex ⟨pc.x + wpb.x, pc.y + wpb.y⟩).toNat →
      Option.map (fun r => (Prod.fst r).getInstr p2) (executeMov true c maxP q pc ir ira wpb) =
        some (c.getInstr p2) := by
  rcases hm with hm | hm | hm | hm | hm | hm <;>
    refine ⟨?_, fun p2 hne => ?_⟩ <;>
    simp [executeMov, hm, M_A, M_B, M_AB, M_BA, M_F, M_X, M_I, moveEnergy,
      getInstr_setInstr_self, getInstr_setInstr_ne, *]

theorem execute_mov_energy_equalize_witness :
    (Instr.modifier c8Cell0 = M_A ∨ Instr.modifier c8Cell0 = M_B ∨
      Instr.modifier c8Cell0 = M_AB ∨ Instr.modifier c8Cell0 = M_BA ∨
      Instr.modifier c8Cell0 = M_F ∨ Instr.modifier c8Cell0 = M_X) ∧
    (Core.pointToIndex c8Core ⟨2, 0⟩).toNat < (Core.instructions c8Core).length ∧
    Option.map (fun r => ((Prod.fst r).getInstr ⟨0 + 2, 0 + 0⟩).energy)
        (executeMov true c8Core 8 [] ⟨0, 0⟩ c8Cell0 c8Cell1 ⟨2, 0⟩) =
      some (Int.fdiv (c8Cell1.energy + (Core.getInstr c8Core ⟨0 + 2, 0 + 0⟩).energy + 1) 2) :=
  ⟨Or.inl rfl, by decide,
    (execute_mov_energy_equalize c8Core 8 [] ⟨0, 0⟩ c8Cell0 c8Cell1 ⟨2, 0⟩
      (Or.inl rfl) (by decide)).1⟩

theorem pti44_zero (l : List Instr) : Core.pointToIndex ⟨4, 4, l⟩ ⟨0, 0⟩ = 0 := by
  simp [Core.pointToIndex, Core.height]

theorem pti44_one (l : List Instr) : Core.pointToIndex ⟨4, 4, l⟩ ⟨1, 0⟩ = 1 := by
  simp only [Core.pointToIndex, Core.height]
  decide

/-- The `JMZ.A }1, $1` instruction sitting at the program counter in the C3
states: its A-operand post-increments cell `(1,0)`, whose (pre-increment)
a-field also steers the A-operand's indirection, and its B-operand reads
cell `(1,0)` directly, so `IRB` exposes whether the post-increment has
already landed when the B-operand is evaluated. -/
def c3Cell0 : Instr :=
  { opcode := JMZ, modifier := M_A, stepping := .normal, aMode := POSTINC_A,
    aNumber := ⟨1, 0⟩, bMode := DIRECT, bNumber := ⟨1, 0⟩, energy := 0 }

/-- The C3 state before the step: cell `(1,0)` has a-field `(a, 0)`. -/
def c3Core (a : Int) : Core :=
  ⟨4, 4, [c3Cell0, { blankInstr with aNumber := ⟨a, 0⟩ }, blankInstr, blankInstr]⟩

/-- The C3 state after the step: cell `(1,0)`'s a-field was post-incremented
to `(a + 1, 0)`. -/
def c3CoreAfter (a : Int) : Core :=
  ⟨4, 4, [c3Cell0, { blankInstr with aNumber := ⟨a + 1, 0⟩ }, blankInstr, blankInstr]⟩

/-- C3 counterexample: executing `JMZ.A }1, $1` where cell `(1,0)` has
a-field `-1` takes the jump (successor `(0,0)`): the B-operand fetch of
`IRB` observed the A post-increment (`-1 + 1 = 0`), so the opcode saw the
incremented field.  Under the claimed ordering (post-increments fired only
after the opcode) `IRB.a` would read `-1 ≠ 0` and the successor would be
the fall-through `(1,0)`. -/
theorem postinc_observed_by_b_counterexample :
    Option.map Prod.snd (stepOneWarrior false 8 (c3Core (-1)) [⟨0, 0⟩]) = some [⟨0, 0⟩] ∧
    ¬(Option.map Prod.snd (stepOneWarrior false 8 (c3Core (-1)) [⟨0, 0⟩]) = some [⟨1, 0⟩]) := by
  constructor
  · decide
  · decide

/-- C3 amended: within a task of `step()`, the A-operand's post-increment
is applied immediately after the A-operand's evaluation (after `IRA` is
captured) and before the B-operand is evaluated; the B post-increment is
applied after the B-operand's evaluation and before the opcode executes.
Consequently the B-operand evaluation and the opcode do observe the A
post-increment: for every initial a-field value `a`, the executed `JMZ`
branches on the incremented value `a + 1`, and the final core carries the
increment. -/
theorem postinc_a_fires_before_b_evaluation (a : Int) :
    stepOneWarrior false 8 (c3Core a) [⟨0, 0⟩] =
      some (c3CoreAfter a,
        [(c3CoreAfter a).trim (if a + 1 = 0 then ⟨1 + a, 0⟩ else ⟨1, 0⟩)]) := by
  simp [stepOneWarrior, hasEnergy, evaluateOperand, handlePostIncrement,
    executeInstruction, executeJmz, enqueue, indirectPoint, incrementByStepping,
    Core.getInstr, Core.setInstr, c3Core, c3CoreAfter, c3Cell0, blankInstr,
    pti44_zero, pti44_one, IMMEDIATE, DIRECT, INDIRECT_B, PREDEC_B, POSTINC_B,
    INDIRECT_A, PREDEC_A, POSTINC_A, DAT, MOV, ADD, SUB, MUL, DIV, MOD, JMP, JMZ,
    M_A, M_B, M_AB, M_BA, M_F, M_X, M_I]

/-- A dynamically-typed Python value as `Instruction.__init__` receives
them: an int, a string, a `Point2D`, or `None`. -/
inductive PyVal where
  | pyInt : Int → PyVal
  | pyStr : String → PyVal
  | pyPoint : Int → Int → PyVal
  | pyNone : PyVal
deriving Repr, DecidableEq

/-- ASCII uppercase of one character (the effect of Python's `str.upper`
on the characters that occur in opcode, modifier and mode tokens). -/
def pyUpperChar (c : Char) : Char :=
  if 97 ≤ c.toNat ∧ c.toNat ≤ 122 then Char.ofNat (c.toNat - 32) else c

/-- Python's `str.upper` on ASCII strings, written by structural recursion
on the character list so that it evaluates inside the kernel. -/
def pyUpper (s : String) : String := ⟨s.data.map pyUpperChar⟩

/-- The `OPCODES` table of `redcode.py` lines 88-91. -/
def OPCODES : List (String × Nat) :=
  [("DAT", DAT), ("MOV", MOV), ("ADD", ADD), ("SUB", SUB), ("MUL", MUL),
   ("DIV", DIV), ("MOD", MOD), ("JMP", JMP), ("JMZ", JMZ), ("JMN", JMN),
   ("DJN", DJN), ("SPL", SPL), ("SLT", SLT), ("CMP", CMP), ("SEQ", SEQ),
   ("SNE", SNE), ("NOP", NOP)]

/-- The `MODIFIERS` table of `redcode.py` lines 93-94. -/
def MODIFIERS : List (String × Nat) :=
  [("A", M_A), ("B", M_B), ("AB", M_AB), ("BA", M_BA), ("F", M_F), ("X", M_X),
   ("I", M_I)]

/-- The `MODES` table of `redcode.py` lines 78-79. -/
def MODES : List (String × Nat) :=
  [("#", IMMEDIATE), ("$", DIRECT), ("@", INDIRECT_B), ("<", PREDEC_B),
   (">", POSTINC_B), ("*", INDIRECT_A), ("\x7b", PREDEC_A), ("\x7d", POSTINC_A)]

/-- The `STEP_MODIFIERS` table of `redcode.py` lines 62-67. -/
def STEP_MODIFIERS : List (String × Nat) :=
  [("D", 0), ("S", 1), ("Q", 2), ("W", 3)]

/-- The five ICWS'88 mode symbols that appear in the `DEFAULT_MODIFIERS`
table source strings `"#$@<>"`. -/
def all88Modes : List Nat :=
  [IMMEDIATE, DIRECT, INDIRECT_B, PREDEC_B, POSTINC_B]

/-- The four non-immediate ICWS'88 modes, from the source string `"$@<>"`. -/
def nonImm88Modes : List Nat := [DIRECT, INDIRECT_B, PREDEC_B, POSTINC_B]

/-- The `DEFAULT_MODIFIERS` table of `redcode.py` lines 100-118 after its
transformation to the internal representation: opcode groups paired with
ordered rules `(a-modes, b-modes, modifier)`. -/
def DEFAULT_MODIFIERS : List (List Nat × List (List Nat × List Nat × Nat)) :=
  [([DAT, NOP], [(all88Modes, all88Modes, M_F)]),
   ([MOV, CMP], [([IMMEDIATE], all88Modes, M_AB), (nonImm88Modes, [IMMEDIATE], M_B),
                 (nonImm88Modes, nonImm88Modes, M_I)]),
   ([ADD, SUB, MUL, DIV, MOD], [([IMMEDIATE], all88Modes, M_AB),
                                (nonImm88Modes, [IMMEDIATE], M_B),
                                (nonImm88Modes, nonImm88Modes, M_F)]),
   ([SLT, SEQ, SNE], [([IMMEDIATE], all88Modes, M_AB), (nonImm88Modes, all88Modes, M_B)]),
   ([JMP, JMZ, JMN, DJN, SPL], [(all88Modes, all88Modes, M_B)])]

/-- `Instruction.default_modifier` from `redcode.py` lines 300-307: scan
the groups for one containing the opcode, then the first rule matching both
modes; `none` models the `RuntimeError` raised when no rule matches. -/
def defaultModifier (o a b : Nat) : Option Nat :=
  DEFAULT_MODIFIERS.findSome? fun entry =>
    if o ∈ entry.1 then
      entry.2.findSome? fun rule =>
        if a ∈ rule.1 ∧ b ∈ rule.2.1 then some rule.2.2 else none
    else none

/-- The result of `Instruction.__init__`: the stored dynamic attribute
values.  `stepping` and the operand values stay dynamically typed (the
constructor can store a string there), the opcode, modifier and modes are
ints after a successful construction. -/
structure DynInstr where
  opcode : Nat
  modifier : Nat
  stepping : PyVal
  aMode : Nat
  aNumber : PyVal
  bMode : Nat
  bNumber : PyVal
deriving Repr, DecidableEq

/-- `Instruction.__init__` from `redcode.py` lines 255-281, over dynamic
argument values (`Instruction(opcode, modifier=None, stepping=None,
a_mode=None, a_number=0, b_mode=None, b_number=0)`).  `none` models an
uncaught exception: a `KeyError` from a failed table lookup or the
`RuntimeError` from `default_modifier`. -/
def instrInit (opcode0 modifier0 stepping0 aMode0 aNumber0 bMode0 bNumber0 : PyVal) :
    Option DynInstr := do
  let opc ← match opcode0 with
    | .pyStr s => OPCODES.lookup (pyUpper s)
    | .pyInt n => some n.toNat
    | _ => none
  let modPre ← match modifier0 with
    | .pyStr s =>
      match MODIFIERS.lookup (pyUpper s) with
      | some m => some (some m)
      | none => none
    | .pyInt n => some (some n.toNat)
    | .pyNone => some none
    | _ => none
  let stp ← match stepping0 with
    | .pyStr s =>
      if (MODES.lookup s).isSome then some (PyVal.pyStr s)
      else
        match STEP_MODIFIERS.lookup (pyUpper s) with
        | some v => some (PyVal.pyInt v)
        | none => none
    | .pyNone => some (PyVal.pyInt 0)
    | v => some v
  let am ← match aMode0 with
    | .pyNone => some DIRECT
    | .pyStr s => MODES.lookup s
    | .pyInt n => some n.toNat
    | _ => none
  let bm ← match bMode0 with
    | .pyNone => some (if opc = DAT ∧ ¬(aNumber0 = PyVal.pyNone) then IMMEDIATE else DIRECT)
    | .pyStr s => MODES.lookup s
    | .pyInt n => some n.toNat
    | _ => none
  let mfinal ← match modPre with
    | some m => some m
    | none => defaultModifier opc am bm
  pure { opcode := opc, modifier := mfinal, stepping := stp, aMode := am,
         aNumber := aNumber0, bMode := bm, bNumber := bNumber0 }

/-- C9: evaluating the constructor call of `core.py` line 9,
`Instruction('DAT', 'F', '$', 0, '$', 0)`, against the
`Instruction.__init__` signature
`(opcode, modifier=None, stepping=None, a_mode=None, a_number=0, b_mode=None, b_number=0)`:
the positional arguments land one slot late, so the stored instruction has
`stepping = '$'` (a string, not NORMAL), `a_mode = 0 = IMMEDIATE` (not
DIRECT), `a_number = '$'` (a string, not the zero Point) and
`b_mode = 0 = IMMEDIATE` — not the `DAT.F $0, $0` the spec (and the
constant's name) intends. -/
theorem default_initial_instruction_misconstructed :
    instrInit (PyVal.pyStr "DAT") (PyVal.pyStr "F") (PyVal.pyStr "$") (PyVal.pyInt 0)
        (PyVal.pyStr "$") (PyVal.pyInt 0) (PyVal.pyInt 0) =
      some { opcode := DAT, modifier := M_F, stepping := PyVal.pyStr "$",
             aMode := IMMEDIATE, aNumber := PyVal.pyStr "$", bMode := IMMEDIATE,
             bNumber := PyVal.pyInt 0 } ∧
    ¬(IMMEDIATE = DIRECT) ∧ ¬(PyVal.pyStr "$" = PyVal.pyPoint 0 0) := by
  refine ⟨?_, by decide, by decide⟩
  decide

/-- C5 counterexample: constructing `DAT` with A-mode `*` (`INDIRECT_A`),
B-mode `#` and no modifier raises: the `DEFAULT_MODIFIERS` table only
covers the ICWS'88 modes `# $ @ < >`, so `default_modifier` finds no rule
for any of the A-variant modes `* lbrace rbrace` and the construction
fails instead of succeeding. -/
theorem default_modifier_a_modes_counterexample :
    instrInit (PyVal.pyStr "DAT") PyVal.pyNone PyVal.pyNone (PyVal.pyStr "*")
        (PyVal.pyInt 0) (PyVal.pyStr "#") (PyVal.pyInt 0) = none ∧
    defaultModifier DAT INDIRECT_A IMMEDIATE = none := by
  refine ⟨?_, by decide⟩
  decide

/-- The ICWS'88 mode symbols as strings. -/
def mode88Syms : List String := ["#", "$", "@", "<", ">"]

/-- C5 amended: for every opcode of the instruction set and every pair of
addressing modes drawn from the five ICWS'88 modes `# $ @ < >`,
constructing an instruction with the modifier left unspecified succeeds,
and the assigned modifier is exactly the one `default_modifier` determines
from the opcode and mode pair; for the A-variant modes `* lbrace rbrace`
the lookup fails and construction raises (see the counterexample). -/
theorem default_modifier_total_on_88_modes :
    ∀ op ∈ OPCODES, ∀ ma ∈ mode88Syms, ∀ mb ∈ mode88Syms,
      (instrInit (PyVal.pyStr op.1) PyVal.pyNone PyVal.pyNone (PyVal.pyStr ma)
          (PyVal.pyInt 0) (PyVal.pyStr mb) (PyVal.pyInt 0)).isSome = true ∧
      Option.map DynInstr.modifier
          (instrInit (PyVal.pyStr op.1) PyVal.pyNone PyVal.pyNone (PyVal.pyStr ma)
            (PyVal.pyInt 0) (PyVal.pyStr mb) (PyVal.pyInt 0)) =
        Option.bind (MODES.lookup ma) (fun a =>
          Option.bind (MODES.lookup mb) (fun b => defaultModifier op.2 a b)) := by
  decide

theorem default_modifier_total_on_88_modes_witness :
    ("MOV", MOV) ∈ OPCODES ∧ "$" ∈ mode88Syms ∧ "#" ∈ mode88Syms ∧
    ((instrInit (PyVal.pyStr "MOV") PyVal.pyNone PyVal.pyNone (PyVal.pyStr "$")
        (PyVal.pyInt 0) (PyVal.pyStr "#") (PyVal.pyInt 0)).isSome = true ∧
     Option.map DynInstr.modifier
        (instrInit (PyVal.pyStr "MOV") PyVal.pyNone PyVal.pyNone (PyVal.pyStr "$")
          (PyVal.pyInt 0) (PyVal.pyStr "#") (PyVal.pyInt 0)) =
       Option.bind (MODES.lookup "$") (fun a =>
         Option.bind (MODES.lookup "#") (fun b => defaultModifier MOV a b))) :=
  ⟨by decide, by decide, by decide,
    default_modifier_total_on_88_modes ("MOV", MOV) (by decide) "$" (by decide) "#" (by decide)⟩
